import Mathlib

/-!
Verification of the browser-side token state-reconciliation engine
(`frontend/script.js`): the in-memory token collection, the socket event
handlers that reconcile partial updates into it, the FIFO-bounded
new-token insertion, and the paginated projection.

JavaScript objects with optional fields are embedded as Lean structures
whose every field is an `Option`; a field holding `none` models a field
that is absent (`undefined`).  JS strict equality `===` on two
possibly-undefined string fields is embedded as decidable equality on
`Option String` (in particular `undefined === undefined` is true, as
`none = none` is).  Numeric field values are only ever copied by the
reconciliation code, never computed with, so they are embedded as `Int`.
-/

/-- A token record as the script stores it in `allTokens`.  Every field is
optional: inbound payloads may omit any of them. -/
structure Token where
  token_address : Option String
  token_name : Option String
  token_ticker : Option String
  price_sol : Option Int
  price_24hr_change : Option Int
  volume_sol : Option Int
  liquidity_sol : Option Int
  protocol : Option String
  deriving DecidableEq, Repr

/-- The empty JS object: every field absent. -/
def emptyTok : Token :=
  { token_address := none, token_name := none, token_ticker := none,
    price_sol := none, price_24hr_change := none, volume_sol := none,
    liquidity_sol := none, protocol := none }

/-- Per-field behaviour of the object spread `{ ...base, ...patch }`:
a field present on the patch wins, an absent one falls back to the base. -/
def ov {α : Type} (p b : Option α) : Option α :=
  match p with
  | some v => some v
  | none => b

/-- Embedding of `allTokens[idx] = { ...allTokens[idx], ...updated }`
(script.js line 173): field-by-field, the patch's present fields
overwrite, its absent fields keep the stored value. -/
def mergeTok (base patch : Token) : Token :=
  { token_address := ov patch.token_address base.token_address,
    token_name := ov patch.token_name base.token_name,
    token_ticker := ov patch.token_ticker base.token_ticker,
    price_sol := ov patch.price_sol base.price_sol,
    price_24hr_change := ov patch.price_24hr_change base.price_24hr_change,
    volume_sol := ov patch.volume_sol base.volume_sol,
    liquidity_sol := ov patch.liquidity_sol base.liquidity_sol,
    protocol := ov patch.protocol base.protocol }

/-- One item of the `tokens_updated` handler's loop (script.js 170-176):
`findIndex(t => t.token_address === updated.token_address)` locates the
first stored token with the same (possibly undefined) address; if found,
that slot is replaced by the spread merge, otherwise nothing happens. -/
def applyPatchItem : List Token → Token → List Token
  | [], _ => []
  | t :: rest, item =>
    if t.token_address = item.token_address then mergeTok t item :: rest
    else t :: applyPatchItem rest item

/-- Payload of one `price_update` item (script.js 186-190). -/
structure PriceUpdate where
  token_address : Option String
  new_price : Option Int
  change_percent : Option Int
  deriving DecidableEq, Repr

/-- Payload of one `volume_spike` item (script.js 201-203). -/
structure VolumeSpike where
  token_address : Option String
  new_volume : Option Int
  deriving DecidableEq, Repr

/-- One `price_update` item applied to the collection (script.js 185-192):
`find` matches the first token by address; if found, exactly its
`price_sol` and `price_24hr_change` fields are assigned (unconditionally
with the update's values). -/
def applyPriceUpdate : List Token → PriceUpdate → List Token
  | [], _ => []
  | t :: rest, u =>
    if t.token_address = u.token_address then
      { t with price_sol := u.new_price, price_24hr_change := u.change_percent } :: rest
    else t :: applyPriceUpdate rest u

/-- One `volume_spike` item applied to the collection (script.js 200-205):
`find` matches the first token by address; if found, exactly its
`volume_sol` field is assigned. -/
def applyVolumeSpike : List Token → VolumeSpike → List Token
  | [], _ => []
  | t :: rest, v =>
    if t.token_address = v.token_address then
      { t with volume_sol := v.new_volume } :: rest
    else t :: applyVolumeSpike rest v

/-- The mutable module-level state the handlers touch: `allTokens` and the
live-update counter `updateCount`.  (`filteredTokens` is always reset to a
copy of `allTokens` by `applyClientFilters`, and `currentPage` is owned by
the pagination buttons; neither carries independent reconciliation
state.) -/
structure AppState where
  allTokens : List Token
  updateCount : Nat
  deriving DecidableEq, Repr

/-- `socket.on('initial_data')` (script.js 157-163): the payload's `data`
field, when it is an array (`some`), replaces `allTokens` wholesale; a
missing or non-array `data` (`none`) leaves the state untouched.  The
update counter is not incremented by this handler. -/
def initial_data (d : Option (List Token)) (s : AppState) : AppState :=
  match d with
  | some l => { s with allTokens := l }
  | none => s

/-- `socket.on('tokens_updated')` (script.js 165-179): `updateCount++`
happens first, unconditionally; then, if `data` is an array, each item is
merged into the first address-matching stored token (items with no match
do nothing). -/
def tokens_updated (d : Option (List Token)) (s : AppState) : AppState :=
  match d with
  | some items =>
    { allTokens := items.foldl applyPatchItem s.allTokens,
      updateCount := s.updateCount + 1 }
  | none => { s with updateCount := s.updateCount + 1 }

/-- The `data` field of a `price_update` event: either already an array,
or a single object that the handler wraps into a one-item array
(script.js 184). -/
inductive PriceData where
  | arr (updates : List PriceUpdate)
  | single (u : PriceUpdate)
  deriving DecidableEq, Repr

def PriceData.toList : PriceData → List PriceUpdate
  | .arr l => l
  | .single u => [u]

/-- The `data` field of a `volume_spike` event, same wrapping rule
(script.js 199). -/
inductive VolumeData where
  | arr (spikes : List VolumeSpike)
  | single (v : VolumeSpike)
  deriving DecidableEq, Repr

def VolumeData.toList : VolumeData → List VolumeSpike
  | .arr l => l
  | .single v => [v]

/-- `socket.on('price_update')` (script.js 181-194): `updateCount++`
unconditionally, then every update in the (possibly wrapped) array is
applied. -/
def price_update (d : PriceData) (s : AppState) : AppState :=
  { allTokens := d.toList.foldl applyPriceUpdate s.allTokens,
    updateCount := s.updateCount + 1 }

/-- `socket.on('volume_spike')` (script.js 196-208). -/
def volume_spike (d : VolumeData) (s : AppState) : AppState :=
  { allTokens := d.toList.foldl applyVolumeSpike s.allTokens,
    updateCount := s.updateCount + 1 }

/-- `socket.on('new_token')` (script.js 210-219): `updateCount++`
unconditionally; then, when `data` is truthy, it is `unshift`ed to the
front and, if the collection now exceeds 100 records, the last record
(`pop()`) is evicted. -/
def new_token (d : Option Token) (s : AppState) : AppState :=
  match d with
  | some tok =>
    let grown := tok :: s.allTokens
    { allTokens := if grown.length > 100 then grown.dropLast else grown,
      updateCount := s.updateCount + 1 }
  | none => { s with updateCount := s.updateCount + 1 }

/-- The update-type socket events (the four handlers that run
`updateCount++`). -/
inductive Ev where
  | tokensUpdated (d : Option (List Token))
  | priceUpdate (d : PriceData)
  | volumeSpike (d : VolumeData)
  | newToken (d : Option Token)

/-- Dispatch of one received update-type event to its handler. -/
def step (s : AppState) (e : Ev) : AppState :=
  match e with
  | .tokensUpdated d => tokens_updated d s
  | .priceUpdate d => price_update d s
  | .volumeSpike d => volume_spike d s
  | .newToken d => new_token d s

/-- Shape of a parsed `/api/tokens` response body `data`: the token array
may sit at `data.data.data` (paginated envelope), at `data.data`, or be
absent (script.js 28: `data.data?.data || data.data || []`; note an empty
JS array is truthy, so an empty nested array is taken as-is). -/
inductive ApiData where
  | nested (tokens : List Token)
  | flat (tokens : List Token)
  | missing
  deriving DecidableEq, Repr

def extractTokens (d : ApiData) : List Token :=
  match d with
  | .nested ts => ts
  | .flat ts => ts
  | .missing => []

/-- `fetchTokens` (script.js 18-45): a successful fetch installs the
unwrapped token array; any thrown error (network or parse failure,
`none`) is caught and `allTokens` is set to the empty array. -/
def fetchTokens (response : Option ApiData) (s : AppState) : AppState :=
  match response with
  | some d => { s with allTokens := extractTokens d }
  | none => { s with allTokens := [] }

/-- `tokensPerPage` (script.js 14). -/
def tokensPerPage : Nat := 25

/-- The page slice computed by `renderTokens` (script.js 66-68):
`filteredTokens.slice((currentPage-1)*25, (currentPage-1)*25 + 25)`. -/
def pageSlice (filtered : List Token) (currentPage : Nat) : List Token :=
  (filtered.drop ((currentPage - 1) * tokensPerPage)).take tokensPerPage

/-- `Math.ceil(filteredTokens.length / tokensPerPage)` (script.js 122),
written on naturals: for positive divisor 25, `ceil(n / 25) = (n + 24) / 25`
(proved against the rational ceiling in `totalPages_eq_ceil` below). -/
def totalPages (filtered : List Token) : Nat :=
  (filtered.length + tokensPerPage - 1) / tokensPerPage

/-- A `tokens_updated` batch as it really arrives: items may be `null`
(`none`).  The predicate `t => t.token_address === updated.token_address`
(script.js 171) reads `updated.token_address`, which on a `null` item
throws a `TypeError` — but `findIndex` invokes the predicate once per
stored element, so on an empty collection it is never invoked and the
`null` item is skipped like any unmatched one.  On a non-empty collection
the first invocation throws; the exception propagates out of `forEach`,
so the items after it are never processed.  The boolean records whether
the batch aborted this way; the list is the collection as left behind
(in-place mutations made before the throw persist). -/
def processPatchItems : List (Option Token) → List Token → List Token × Bool
  | [], toks => (toks, false)
  | none :: rest, [] => processPatchItems rest []
  | none :: _, t :: toks => (t :: toks, true)
  | some item :: rest, toks => processPatchItems rest (applyPatchItem toks item)

/-- Same nullable-item model for a `price_update` batch: the `find`
predicate (script.js 186) reads `update.token_address`, throwing on a
`null` item — but only when the collection is non-empty, since `find`
never invokes the predicate on an empty array. -/
def processPriceItems : List (Option PriceUpdate) → List Token → List Token × Bool
  | [], toks => (toks, false)
  | none :: rest, [] => processPriceItems rest []
  | none :: _, t :: toks => (t :: toks, true)
  | some u :: rest, toks => processPriceItems rest (applyPriceUpdate toks u)

/-- A concrete token whose address is the decimal print of `n`; used to
drive the handlers on explicit inputs. -/
def mkTok (n : Nat) : Token :=
  { emptyTok with token_address := some (Nat.repr n), price_sol := some (n : Int) }

/-- 101 successive `new_token` events with fresh addresses `0`..`100`,
starting from an empty store. -/
def insert101 : AppState :=
  (List.range 101).foldl (fun st i => new_token (some (mkTok i)) st)
    { allTokens := [], updateCount := 0 }

/-- A store holding 100 records, the size bound of the collection. -/
def fullState : AppState :=
  { allTokens := (List.range 100).map mkTok, updateCount := 0 }

/-- A 26-record collection, one over a single page. -/
def l26 : List Token := (List.range 26).map mkTok

/-- The per-field union the spec ascribes to the merge: a field present
on the patch replaces the stored value, an absent one preserves it. -/
def unionField {α : Type} (b p m : Option α) : Prop :=
  (∀ v, p = some v → m = some v) ∧ (p = none → m = b)

lemma ov_unionField {α : Type} (b p : Option α) : unionField b p (ov p b) := by
  constructor
  · intro v h
    simp [ov, h]
  · intro h
    simp [ov, h]

lemma nat_ceil_div25 (n : ℕ) : (n + 24) / 25 = ⌈(n : ℚ) / 25⌉₊ := by
  have key : ∀ k : ℕ, ⌈(n : ℚ) / 25⌉₊ ≤ k ↔ n ≤ 25 * k := by
    intro k
    rw [Nat.ceil_le, div_le_iff₀ (by norm_num : (0 : ℚ) < 25), mul_comm]
    norm_cast
  have key2 : ∀ k : ℕ, (n + 24) / 25 ≤ k ↔ n ≤ 25 * k := by
    intro k
    rw [Nat.div_le_iff_le_mul_add_pred (by norm_num)]
    omega
  exact Nat.le_antisymm ((key2 _).2 ((key _).1 le_rfl)) ((key _).2 ((key2 _).1 le_rfl))

/-- C1: for every stored token and every bulk-patch item whose address
matches it, the `tokens_updated` merge replaces exactly the fields
present in the patch item and keeps every field absent from the patch at
its stored value; in particular a stored `{price_sol:1, volume_sol:5}`
record patched with `{price_sol:2}` becomes `{price_sol:2, volume_sol:5}`. -/
theorem tokens_updated_merge_field_union :
    (∀ base patch : Token,
      unionField base.token_address patch.token_address (mergeTok base patch).token_address ∧
      unionField base.token_name patch.token_name (mergeTok base patch).token_name ∧
      unionField base.token_ticker patch.token_ticker (mergeTok base patch).token_ticker ∧
      unionField base.price_sol patch.price_sol (mergeTok base patch).price_sol ∧
      unionField base.price_24hr_change patch.price_24hr_change
        (mergeTok base patch).price_24hr_change ∧
      unionField base.volume_sol patch.volume_sol (mergeTok base patch).volume_sol ∧
      unionField base.liquidity_sol patch.liquidity_sol (mergeTok base patch).liquidity_sol ∧
      unionField base.protocol patch.protocol (mergeTok base patch).protocol) ∧
    (∀ (toks : List Token) (t item : Token), t.token_address = item.token_address →
      applyPatchItem (t :: toks) item = mergeTok t item :: toks) ∧
    (tokens_updated
        (some [{ emptyTok with token_address := some "A", price_sol := some 2 }])
        { allTokens := [{ emptyTok with
            token_address := some "A", price_sol := some 1, volume_sol := some 5 }],
          updateCount := 0 }).allTokens
      = [{ emptyTok with
          token_address := some "A", price_sol := some 2, volume_sol := some 5 }] := by
  refine ⟨fun base patch =>
    ⟨ov_unionField .., ov_unionField .., ov_unionField .., ov_unionField ..,
     ov_unionField .., ov_unionField .., ov_unionField .., ov_unionField ..⟩,
    fun toks t item h => ?_, by decide⟩
  simp [applyPatchItem, h]

theorem tokens_updated_merge_field_union_witness :
    ({ emptyTok with price_sol := some 2 } : Token).price_sol = some 2 ∧
    (mergeTok { emptyTok with price_sol := some 1, volume_sol := some 5 }
        { emptyTok with price_sol := some 2 }).price_sol = some 2 ∧
    emptyTok.token_address = emptyTok.token_address ∧
    applyPatchItem [emptyTok] emptyTok = mergeTok emptyTok emptyTok :: [] := by
  refine ⟨rfl, ?_, rfl, ?_⟩
  · exact (tokens_updated_merge_field_union.1
      { emptyTok with price_sol := some 1, volume_sol := some 5 }
      { emptyTok with price_sol := some 2 }).2.2.2.1.1 2 rfl
  · exact tokens_updated_merge_field_union.2.1 [] emptyTok emptyTok rfl

set_option maxRecDepth 10000 in
/-- C2: whenever an insertion pushes the collection past 100 records,
exactly the tail record (oldest insertion) is evicted; below the bound
nothing is evicted; and 101 successive `new_token` insertions into an
empty store leave exactly the 100 most recent tokens, the very first
one absent. -/
theorem new_token_fifo_bound :
    (∀ (s : AppState) (tok : Token), 100 ≤ s.allTokens.length →
      (new_token (some tok) s).allTokens = (tok :: s.allTokens).dropLast) ∧
    (∀ (s : AppState) (tok : Token), s.allTokens.length < 100 →
      (new_token (some tok) s).allTokens = tok :: s.allTokens) ∧
    (insert101.allTokens = (List.range 100).map (fun i => mkTok (100 - i)) ∧
     mkTok 0 ∉ insert101.allTokens ∧ insert101.allTokens.length = 100) := by
  refine ⟨?_, ?_, by decide⟩
  · intro s tok h
    simp only [new_token, List.length_cons]
    rw [if_pos (by omega)]
  · intro s tok h
    simp only [new_token, List.length_cons]
    rw [if_neg (by omega)]

theorem new_token_fifo_bound_witness :
    100 ≤ fullState.allTokens.length ∧
    (new_token (some (mkTok 200)) fullState).allTokens
      = (mkTok 200 :: fullState.allTokens).dropLast :=
  ⟨by decide, new_token_fifo_bound.1 fullState (mkTok 200) (by decide)⟩

/-- C3: a patch item of any of the three patch events whose address
matches no stored record leaves the collection unchanged, and no patch
item ever changes the number of stored records (so a patch never creates
a record). -/
theorem patch_unknown_address_noop :
    (∀ (toks : List Token) (item : Token),
      (∀ t ∈ toks, t.token_address ≠ item.token_address) →
      applyPatchItem toks item = toks) ∧
    (∀ (toks : List Token) (u : PriceUpdate),
      (∀ t ∈ toks, t.token_address ≠ u.token_address) →
      applyPriceUpdate toks u = toks) ∧
    (∀ (toks : List Token) (v : VolumeSpike),
      (∀ t ∈ toks, t.token_address ≠ v.token_address) →
      applyVolumeSpike toks v = toks) ∧
    (∀ (toks : List Token) (item : Token),
      (applyPatchItem toks item).length = toks.length) ∧
    (∀ (toks : List Token) (u : PriceUpdate),
      (applyPriceUpdate toks u).length = toks.length) ∧
    (∀ (toks : List Token) (v : VolumeSpike),
      (applyVolumeSpike toks v).length = toks.length) := by
  refine ⟨?_, ?_, ?_, ?_, ?_, ?_⟩
  · intro toks item h
    induction toks with
    | nil => rfl
    | cons t rest ih =>
      rw [applyPatchItem, if_neg (h t (by simp)), ih (fun x hx => h x (by simp [hx]))]
  · intro toks u h
    induction toks with
    | nil => rfl
    | cons t rest ih =>
      rw [applyPriceUpdate, if_neg (h t (by simp)), ih (fun x hx => h x (by simp [hx]))]
  · intro toks v h
    induction toks with
    | nil => rfl
    | cons t rest ih =>
      rw [applyVolumeSpike, if_neg (h t (by simp)), ih (fun x hx => h x (by simp [hx]))]
  · intro toks item
    induction toks with
    | nil => rfl
    | cons t rest ih =>
      rw [applyPatchItem]
      split <;> simp [ih]
  · intro toks u
    induction toks with
    | nil => rfl
    | cons t rest ih =>
      rw [applyPriceUpdate]
      split <;> simp [ih]
  · intro toks v
    induction toks with
    | nil => rfl
    | cons t rest ih =>
      rw [applyVolumeSpike]
      split <;> simp [ih]

theorem patch_unknown_address_noop_witness :
    applyPatchItem [mkTok 1] (mkTok 2) = [mkTok 1] ∧
    applyPriceUpdate [mkTok 1]
      { token_address := some (Nat.repr 2), new_price := some 9, change_percent := some 4 }
      = [mkTok 1] ∧
    applyVolumeSpike [mkTok 1] { token_address := some (Nat.repr 2), new_volume := some 9 }
      = [mkTok 1] :=
  ⟨patch_unknown_address_noop.1 [mkTok 1] (mkTok 2) (by decide),
   patch_unknown_address_noop.2.1 [mkTok 1] _ (by decide),
   patch_unknown_address_noop.2.2.1 [mkTok 1] _ (by decide)⟩

/-- C4 counterexample: on a non-empty store, a `tokens_updated` batch
whose first item is `null` aborts — `findIndex` invokes its predicate on
the first stored token and `updated.token_address` throws on `null` — so
the following well-formed item is not applied, even though applying it
would have changed the store: the claim that a malformed item never
aborts the remaining items of its batch fails at this input. -/
theorem null_item_aborts_batch :
    processPatchItems
        [none, some { emptyTok with token_address := some "A", price_sol := some 2 }]
        [{ emptyTok with token_address := some "A", price_sol := some 1 }]
      = ([{ emptyTok with token_address := some "A", price_sol := some 1 }], true) ∧
    applyPatchItem [{ emptyTok with token_address := some "A", price_sol := some 1 }]
        { emptyTok with token_address := some "A", price_sol := some 2 }
      ≠ [{ emptyTok with token_address := some "A", price_sol := some 1 }] := by
  decide

/-- C4 amended: a malformed batch item that is still a non-null object
merely missing its address is skipped individually (it matches no stored
record, provided no stored record itself lacks an address) and every
other item of the batch is applied; a `null` item is likewise harmlessly
skipped while the collection is empty (the matching predicate is never
invoked, so nothing throws and the batch continues); but on a non-empty
collection a `null` item throws, and the items after it in the same
batch are never processed (those before it remain applied). -/
theorem patch_malformed_item_handling :
    (∀ (items toks : List Token),
      processPatchItems (items.map some) toks = (items.foldl applyPatchItem toks, false)) ∧
    (∀ (toks : List Token) (item : Token), item.token_address = none →
      (∀ t ∈ toks, t.token_address ≠ none) → applyPatchItem toks item = toks) ∧
    (∀ (rest : List (Option Token)) (t : Token) (toks : List Token),
      processPatchItems (none :: rest) (t :: toks) = (t :: toks, true)) ∧
    (∀ items : List (Option Token), processPatchItems items [] = ([], false)) ∧
    (∀ (us : List PriceUpdate) (toks : List Token),
      processPriceItems (us.map some) toks = (us.foldl applyPriceUpdate toks, false)) ∧
    (∀ (toks : List Token) (u : PriceUpdate), u.token_address = none →
      (∀ t ∈ toks, t.token_address ≠ none) → applyPriceUpdate toks u = toks) ∧
    (∀ (rest : List (Option PriceUpdate)) (t : Token) (toks : List Token),
      processPriceItems (none :: rest) (t :: toks) = (t :: toks, true)) ∧
    (∀ us : List (Option PriceUpdate), processPriceItems us [] = ([], false)) := by
  refine ⟨?_, ?_, fun rest t toks => rfl, ?_, ?_, ?_, fun rest t toks => rfl, ?_⟩
  · intro items
    induction items with
    | nil => intro toks; rfl
    | cons i rest ih =>
      intro toks
      rw [List.map_cons, processPatchItems, List.foldl_cons, ih]
  · intro toks item hitem htoks
    induction toks with
    | nil => rfl
    | cons t rest ih =>
      rw [applyPatchItem, if_neg (by rw [hitem]; exact htoks t (by simp)),
        ih (fun x hx => htoks x (by simp [hx]))]
  · intro items
    induction items with
    | nil => rfl
    | cons i rest ih =>
      cases i with
      | none => rw [processPatchItems, ih]
      | some item =>
        rw [processPatchItems]
        exact ih
  · intro us
    induction us with
    | nil => intro toks; rfl
    | cons u rest ih =>
      intro toks
      rw [List.map_cons, processPriceItems, List.foldl_cons, ih]
  · intro toks u hu htoks
    induction toks with
    | nil => rfl
    | cons t rest ih =>
      rw [applyPriceUpdate, if_neg (by rw [hu]; exact htoks t (by simp)),
        ih (fun x hx => htoks x (by simp [hx]))]
  · intro us
    induction us with
    | nil => rfl
    | cons u rest ih =>
      cases u with
      | none => rw [processPriceItems, ih]
      | some v =>
        rw [processPriceItems]
        exact ih

theorem patch_malformed_item_handling_witness :
    processPatchItems [some (mkTok 1), some (mkTok 2)] [mkTok 1, mkTok 2]
      = ([mkTok 1, mkTok 2].foldl applyPatchItem [mkTok 1, mkTok 2], false) ∧
    applyPatchItem [mkTok 1] emptyTok = [mkTok 1] ∧
    processPatchItems [none, some (mkTok 2)] [mkTok 1] = ([mkTok 1], true) ∧
    processPatchItems [none, some (mkTok 2)] [] = ([], false) :=
  ⟨patch_malformed_item_handling.1 [mkTok 1, mkTok 2] [mkTok 1, mkTok 2],
   patch_malformed_item_handling.2.1 [mkTok 1] emptyTok rfl (by decide),
   patch_malformed_item_handling.2.2.1 [some (mkTok 2)] (mkTok 1) [],
   patch_malformed_item_handling.2.2.2.1 [none, some (mkTok 2)]⟩

/-- C5 counterexample: an `initial_data` push whose `data` is malformed
(null or not an array) does not empty the collection: the handler's
guard simply skips the assignment and the previously stored records are
retained, so the claim that every malformed full-snapshot load yields
the empty collection fails at this input. -/
theorem malformed_initial_data_retains_data :
    (initial_data none { allTokens := [mkTok 0], updateCount := 0 }).allTokens = [mkTok 0] ∧
    [mkTok 0] ≠ ([] : List Token) := by
  decide

/-- C5 amended: a failed bulk fetch yields the empty collection (the
catch block assigns `[]`), while a malformed `initial_data` payload
leaves the whole state — collection included — unchanged rather than
emptying it. -/
theorem fetch_failure_empty_push_malformed_noop :
    (∀ s : AppState, (fetchTokens none s).allTokens = []) ∧
    (∀ s : AppState, initial_data none s = s) :=
  ⟨fun _ => rfl, fun _ => rfl⟩

/-- C6: the rendered page is the slice `[(p-1)*25, p*25)` of the working
sequence and the page total is `ceil(count / 25)` (stated against the
rational ceiling); in particular a 26-record collection has 25 records on
page 1, `totalPages = 2`, and 1 record on page 2. -/
theorem pagination_slice_and_ceil :
    (∀ (l : List Token) (p : Nat), 1 ≤ p →
      pageSlice l p = (l.take (p * tokensPerPage)).drop ((p - 1) * tokensPerPage)) ∧
    (∀ l : List Token, totalPages l = ⌈(l.length : ℚ) / 25⌉₊) ∧
    (∀ l : List Token, l.length = 26 →
      (pageSlice l 1).length = 25 ∧ totalPages l = 2 ∧ (pageSlice l 2).length = 1) := by
  refine ⟨?_, ?_, ?_⟩
  · intro l p hp
    obtain ⟨q, rfl⟩ : ∃ q, p = q + 1 := ⟨p - 1, by omega⟩
    rw [List.drop_take]
    simp only [pageSlice, tokensPerPage, Nat.add_sub_cancel]
    congr 1
    omega
  · intro l
    have h24 : l.length + 25 - 1 = l.length + 24 := by omega
    rw [totalPages, tokensPerPage, h24, nat_ceil_div25]
  · intro l h
    refine ⟨?_, ?_, ?_⟩
    · simp [pageSlice, tokensPerPage, h]
    · rw [totalPages, tokensPerPage, h]
    · simp [pageSlice, tokensPerPage, h]

theorem pagination_slice_and_ceil_witness :
    pageSlice l26 1 = (l26.take (1 * tokensPerPage)).drop ((1 - 1) * tokensPerPage) ∧
    (pageSlice l26 1).length = 25 ∧ totalPages l26 = 2 ∧ (pageSlice l26 2).length = 1 :=
  ⟨pagination_slice_and_ceil.1 l26 1 (by norm_num),
   pagination_slice_and_ceil.2.2 l26 (by decide)⟩

/-- C7: a price tick applied to the collection rewrites exactly the
`price_sol` and `price_24hr_change` fields of the first record matching
its address, and a volume tick rewrites exactly the `volume_sol` field;
every other field of the matched record and every other record are left
untouched. -/
theorem tick_frame_effect :
    (∀ (pre post : List Token) (t : Token) (u : PriceUpdate),
      (∀ x ∈ pre, x.token_address ≠ u.token_address) →
      t.token_address = u.token_address →
      applyPriceUpdate (pre ++ t :: post) u
        = pre ++ { t with price_sol := u.new_price,
                          price_24hr_change := u.change_percent } :: post) ∧
    (∀ (pre post : List Token) (t : Token) (v : VolumeSpike),
      (∀ x ∈ pre, x.token_address ≠ v.token_address) →
      t.token_address = v.token_address →
      applyVolumeSpike (pre ++ t :: post) v
        = pre ++ { t with volume_sol := v.new_volume } :: post) := by
  constructor
  · intro pre post t u hpre ht
    induction pre with
    | nil => simp only [List.nil_append, applyPriceUpdate, if_pos ht]
    | cons x rest ih =>
      simp only [List.cons_append, applyPriceUpdate]
      rw [if_neg (hpre x (by simp))]
      exact congrArg (x :: ·) (ih (fun y hy => hpre y (by simp [hy])))
  · intro pre post t v hpre ht
    induction pre with
    | nil => simp only [List.nil_append, applyVolumeSpike, if_pos ht]
    | cons x rest ih =>
      simp only [List.cons_append, applyVolumeSpike]
      rw [if_neg (hpre x (by simp))]
      exact congrArg (x :: ·) (ih (fun y hy => hpre y (by simp [hy])))

theorem tick_frame_effect_witness :
    applyPriceUpdate ([mkTok 1] ++ mkTok 2 :: [mkTok 3])
        { token_address := some (Nat.repr 2), new_price := some 9, change_percent := some 4 }
      = [mkTok 1] ++ { mkTok 2 with price_sol := some 9,
                                    price_24hr_change := some 4 } :: [mkTok 3] ∧
    applyVolumeSpike ([mkTok 1] ++ mkTok 2 :: [mkTok 3])
        { token_address := some (Nat.repr 2), new_volume := some 8 }
      = [mkTok 1] ++ { mkTok 2 with volume_sol := some 8 } :: [mkTok 3] :=
  ⟨tick_frame_effect.1 [mkTok 1] [mkTok 3] (mkTok 2) _ (by decide) rfl,
   tick_frame_effect.2 [mkTok 1] [mkTok 3] (mkTok 2) _ (by decide) rfl⟩

lemma step_updateCount (s : AppState) (e : Ev) :
    (step s e).updateCount = s.updateCount + 1 := by
  cases e with
  | tokensUpdated d => cases d <;> rfl
  | priceUpdate d => rfl
  | volumeSpike d => rfl
  | newToken d => cases d <;> rfl

/-- C8: each of the four update-type handlers increments `updateCount`
exactly once per received event, however many records the event touched
(and even when its payload is malformed), so after any sequence of such
events the counter equals its initial value plus the number of events. -/
theorem update_counter_once_per_event (evs : List Ev) (s : AppState) :
    (evs.foldl step s).updateCount = s.updateCount + evs.length := by
  induction evs generalizing s with
  | nil => simp
  | cons e rest ih =>
    simp only [List.foldl_cons, List.length_cons]
    rw [ih, step_updateCount]
    omega

/-- C9: a `new_token` event whose `data` is absent or falsy changes
nothing in the collection — no insertion, no eviction — while the update
counter is still incremented by one. -/
theorem new_token_falsy_data_noop (s : AppState) :
    new_token none s = { s with updateCount := s.updateCount + 1 } :=
  rfl

/-- C10: `tokens_updated` matches items to records by strict equality on
the possibly-absent `token_address`; a stored record with no address
matches a patch item with no address (as `undefined === undefined` is
true) and receives the merge instead of the item being dropped. -/
theorem patch_matches_undefined_address
    (pre post : List Token) (t item : Token)
    (hpre : ∀ x ∈ pre, x.token_address ≠ none)
    (ht : t.token_address = none) (hitem : item.token_address = none) :
    applyPatchItem (pre ++ t :: post) item = pre ++ mergeTok t item :: post := by
  induction pre with
  | nil =>
    simp only [List.nil_append, applyPatchItem]
    rw [if_pos (by rw [ht, hitem])]
  | cons x rest ih =>
    simp only [List.cons_append, applyPatchItem]
    rw [if_neg (by rw [hitem]; exact hpre x (by simp))]
    exact congrArg (x :: ·) (ih (fun y hy => hpre y (by simp [hy])))

theorem patch_matches_undefined_address_witness :
    applyPatchItem ([mkTok 1] ++ emptyTok :: [])
        { emptyTok with price_sol := some 7 }
      = [mkTok 1] ++ mergeTok emptyTok { emptyTok with price_sol := some 7 } :: [] :=
  patch_matches_undefined_address [mkTok 1] [] emptyTok
    { emptyTok with price_sol := some 7 } (by decide) rfl rfl
